import Mathlib

/-!
Verification development for the `nishack1984` endpoint agent.

The Rust sources are shallowly embedded: pure logic becomes Lean functions,
effectful OS inputs (process tables, resolver-cache text, window-title text,
capture attempts, socket sends) become explicit arguments, and effectful
outputs (kills, cache flushes, Redis writes, wire messages) become explicit
components of the result.  Machine integers are `Nat` with explicit
`% 2 ^ 32` where 32-bit overflow matters.
-/

namespace Nishack

/-- Substring test, embedding Rust `str::contains` (byte/char sequence
containment; `contains ""` is `true` in both). -/
def strContains (hay pat : String) : Bool :=
  decide (pat.data <:+: hay.data)

/-- Embedding of Rust `str::to_lowercase` (character-wise lowering; faithful
on the ASCII data the agent handles). -/
def lowerStr (s : String) : String :=
  String.mk (s.data.map Char.toLower)

/-- Embedding of Rust `str::strip_suffix`: `some` of the text before the
suffix when `s` ends with `suf`, else `none`. -/
def stripSuffixStr (s suf : String) : Option String :=
  if suf.data.length ≤ s.data.length ∧
      s.data.drop (s.data.length - suf.data.length) = suf.data then
    some (String.mk (s.data.take (s.data.length - suf.data.length)))
  else
    none

/-- From `monitor.rs` (`scan_processes`): `name.strip_suffix(".exe").unwrap_or(&name)`. -/
def stripExe (name : String) : String :=
  (stripSuffixStr name ".exe").getD name

/-- From `monitor.rs` (`scan_window_titles`): `domain.split('.').next().unwrap_or(domain)`
— the text before the first `'.'` of a domain (the `split` iterator always
yields at least one item, so the `unwrap_or` fallback is never taken). -/
def firstLabel (d : String) : String :=
  String.mk (d.data.takeWhile (fun c => c != '.'))

-- ── Data model (`models.rs`) ─────────────────────────────────────

/-- `ViolationKind` from `models.rs`. -/
inductive ViolationKind where
  | process
  | domain
deriving DecidableEq

/-- `Violation` from `models.rs`.  The `DateTime<Utc>` timestamp is embedded
as an abstract `Nat` instant supplied by the caller (the source reads
`Utc::now()`). -/
structure Violation where
  hostname : String
  target : String
  kind : ViolationKind
  action_taken : Bool
  username : String
  timestamp : Nat
deriving DecidableEq

-- ── Monitor (`monitor.rs`) ───────────────────────────────────────

/-- One row of the `sysinfo` process table together with the result the OS
would give for `proc.kill()`. -/
structure ProcEntry where
  pid : Nat
  name : String
  killOk : Bool
deriving DecidableEq

/-- `Monitor` from `monitor.rs`.  The `sysinfo::System` handle is embedded as
the process snapshot it currently holds; the two `HashSet<String>` ban sets
are embedded as duplicate-free lists (membership is what every scan uses). -/
structure Monitor where
  sys : List ProcEntry
  banned_procs : List String
  banned_domains : List String
  hostname : String
  username : String
deriving DecidableEq

/-- `Monitor::update_bans`: wholly replace both ban sets with the lowercased
forms of the supplied lists (`HashSet` collection = dedup). -/
def update_bans (m : Monitor) (ps ds : List String) : Monitor :=
  { m with
    banned_procs := (ps.map lowerStr).dedup
    banned_domains := (ds.map lowerStr).dedup }

/-- Matching condition of `Monitor::scan_processes`: the banned set contains
the lowercased process name with the `.exe` suffix stripped, or the raw
lowercased name. -/
def procBanned (m : Monitor) (p : ProcEntry) : Bool :=
  m.banned_procs.contains (stripExe (lowerStr p.name)) ||
    m.banned_procs.contains (lowerStr p.name)

/-- The `Violation` pushed by `Monitor::scan_processes` for one matching
process: `target` is the raw lowercased name and `action_taken` is the
result of `proc.kill()`. -/
def mkProcViolation (m : Monitor) (now : Nat) (p : ProcEntry) : Violation :=
  { hostname := m.hostname
    target := (lowerStr p.name)
    kind := ViolationKind.process
    action_taken := p.killOk
    username := m.username
    timestamp := now }

/-- `Monitor::scan_processes`: refresh the process snapshot (`fresh` is what
the OS reports), then emit one violation per matching process.  The returned
monitor reflects the `&mut self` refresh of the `sysinfo` handle. -/
def scan_processes (m : Monitor) (fresh : List ProcEntry) (now : Nat) :
    List Violation × Monitor :=
  let m' := { m with sys := fresh }
  ((fresh.filter (fun p => procBanned m' p)).map (mkProcViolation m' now), m')

/-- The `Violation` recorded by the two domain probes (`action_taken` is
always `false` there). -/
def mkDomainViolation (m : Monitor) (now : Nat) (d : String) : Violation :=
  { hostname := m.hostname
    target := d
    kind := ViolationKind.domain
    action_taken := false
    username := m.username
    timestamp := now }

/-- The shared loop shape of `scan_dns_cache` and `scan_window_titles`:
walk the banned domains, and for each one that matches the (already
lowercased) probe text and survives the per-cycle `seen` set, record one
violation.  `seen.insert` is only reached when the match succeeded, exactly
as in the short-circuiting Rust condition. -/
def domainScanLoop (m : Monitor) (now : Nat) (matchesText : String → Bool) :
    List String → List String → List Violation
  | [], _ => []
  | d :: rest, seen =>
    if matchesText d && !(seen.contains d) then
      mkDomainViolation m now d :: domainScanLoop m now matchesText rest (d :: seen)
    else
      domainScanLoop m now matchesText rest seen

/-- Match condition of `scan_dns_cache`: `stdout.contains(domain)` on the
lowercased command output. -/
def dnsMatch (raw : String) : String → Bool :=
  fun d => strContains (lowerStr raw) d

/-- Match condition of `scan_window_titles`: the lowercased title text
contains the domain in full or its first label. -/
def titleMatch (raw : String) : String → Bool :=
  fun d => strContains (lowerStr raw) d || strContains (lowerStr raw) (firstLabel d)

/-- `Monitor::scan_dns_cache`.  `cacheText = none` embeds every early-return
branch (unsupported platform, command failure); `some raw` is the captured
stdout of the platform resolver-cache command.  The second component records
whether `flush_dns` was invoked (the source flushes iff the violation list
is non-empty). -/
def scan_dns_cache (m : Monitor) (cacheText : Option String) (now : Nat) :
    List Violation × Bool :=
  match cacheText with
  | none => ([], false)
  | some raw =>
    let violations := domainScanLoop m now (dnsMatch raw) m.banned_domains []
    (violations, !violations.isEmpty)

/-- `Monitor::scan_window_titles`.  `titlesText = none` embeds the
early-return branches; `some raw` is the concatenated window-title text.
A domain matches if the lowercased text contains it in full or contains its
first label. -/
def scan_window_titles (m : Monitor) (titlesText : Option String) (now : Nat) :
    List Violation :=
  match titlesText with
  | none => []
  | some raw => domainScanLoop m now (titleMatch raw) m.banned_domains []

/-- `Monitor::full_scan`: run all three probes in order and concatenate. -/
def full_scan (m : Monitor) (fresh : List ProcEntry)
    (cacheText titlesText : Option String) (now : Nat) :
    List Violation × Monitor :=
  let pr := scan_processes m fresh now
  let m1 := pr.2
  (pr.1 ++ ((scan_dns_cache m1 cacheText now).1 ++ scan_window_titles m1 titlesText now), m1)

-- ── Supporting lemmas about the probe loops ──────────────────────

theorem contains_eq_true_iff {l : List String} {x : String} :
    l.contains x = true ↔ x ∈ l := by
  simp [List.contains, List.elem_iff]

theorem mem_domainScanLoop {m : Monitor} {now : Nat} {f : String → Bool} :
    ∀ {doms seen : List String} {v : Violation},
      v ∈ domainScanLoop m now f doms seen →
        v.kind = ViolationKind.domain ∧ v.action_taken = false ∧
          v.target ∈ doms ∧ f v.target = true := by
  intro doms
  induction doms with
  | nil => intro seen v hv; simp [domainScanLoop] at hv
  | cons d rest ih =>
    intro seen v hv
    rw [domainScanLoop] at hv
    by_cases hc : (f d && !(seen.contains d)) = true
    · rw [if_pos hc] at hv
      rcases List.mem_cons.mp hv with rfl | hv'
      · refine ⟨rfl, rfl, List.mem_cons_self _ _, ?_⟩
        simpa using (Bool.and_elim_left hc)
      · rcases ih hv' with ⟨h1, h2, h3, h4⟩
        exact ⟨h1, h2, List.mem_cons_of_mem _ h3, h4⟩
    · rw [if_neg hc] at hv
      rcases ih hv with ⟨h1, h2, h3, h4⟩
      exact ⟨h1, h2, List.mem_cons_of_mem _ h3, h4⟩

theorem mem_cons_iff_of_ne {a b : String} {l : List String} (h : ¬b = a) :
    a ∈ b :: l ↔ a ∈ l := by
  constructor
  · intro hm
    rcases List.mem_cons.mp hm with rfl | hm'
    · exact absurd rfl h
    · exact hm'
  · intro hm
    exact List.mem_cons_of_mem _ hm

theorem countP_domainScanLoop (m : Monitor) (now : Nat) (f : String → Bool)
    (D : String) :
    ∀ (doms seen : List String),
      (domainScanLoop m now f doms seen).countP (fun v => v.target == D) =
        if f D = true ∧ D ∈ doms ∧ D ∉ seen then 1 else 0 := by
  intro doms
  induction doms with
  | nil => intro seen; simp [domainScanLoop]
  | cons d rest ih =>
    intro seen
    rw [domainScanLoop]
    by_cases hc : (f d && !(seen.contains d)) = true
    · have hfd : f d = true := Bool.and_elim_left hc
      have hdseen : d ∉ seen := by
        have := Bool.and_elim_right hc
        simpa [contains_eq_true_iff] using this
      rw [if_pos hc, List.countP_cons, ih (d :: seen)]
      by_cases hdD : d = D
      · obtain rfl := hdD
        simp [mkDomainViolation, hfd, hdseen]
      · have htD : ((mkDomainViolation m now d).target == D) = false := by
          simp [mkDomainViolation, hdD]
        rw [htD]
        simp [mem_cons_iff_of_ne hdD]
    · have hnc : ¬(f d = true ∧ d ∉ seen) := by
        intro hcc
        apply hc
        simp [hcc.1, contains_eq_true_iff, hcc.2]
      rw [if_neg hc, ih seen]
      by_cases hdD : d = D
      · obtain rfl := hdD
        by_cases hfd : f d = true
        · have hds : d ∈ seen := by
            by_contra hds
            exact hnc ⟨hfd, hds⟩
          simp [hds]
        · simp [hfd]
      · simp [mem_cons_iff_of_ne hdD]

theorem domainScanLoop_eq_nil_iff (m : Monitor) (now : Nat) (f : String → Bool) :
    ∀ (doms seen : List String),
      domainScanLoop m now f doms seen = [] ↔
        ∀ d ∈ doms, ¬(f d = true ∧ d ∉ seen) := by
  intro doms
  induction doms with
  | nil => intro seen; simp [domainScanLoop]
  | cons d rest ih =>
    intro seen
    rw [domainScanLoop]
    by_cases hc : (f d && !(seen.contains d)) = true
    · have hfd : f d = true := Bool.and_elim_left hc
      have hdseen : d ∉ seen := by
        have := Bool.and_elim_right hc
        simpa [contains_eq_true_iff] using this
      rw [if_pos hc]
      simp only [List.cons_ne_nil, false_iff]
      intro h
      exact h d (List.mem_cons_self _ _) ⟨hfd, hdseen⟩
    · have hnc : ¬(f d = true ∧ d ∉ seen) := by
        intro ⟨h1, h2⟩
        apply hc
        simp [h1, contains_eq_true_iff, h2]
      rw [if_neg hc, ih seen]
      constructor
      · intro h e he
        rcases List.mem_cons.mp he with rfl | he'
        · exact hnc
        · exact h e he'
      · intro h e he
        exact h e (List.mem_cons_of_mem _ he)

theorem stripExe_append_exe (P : String) : stripExe (P ++ ".exe") = P := by
  have hdata : (P ++ ".exe").data = P.data ++ (".exe" : String).data :=
    String.data_append _ _
  have hlen : (P ++ ".exe").data.length - (".exe" : String).data.length
      = P.data.length := by
    rw [hdata, List.length_append]
    omega
  have hle : (".exe" : String).data.length ≤ (P ++ ".exe").data.length := by
    rw [hdata, List.length_append]
    omega
  have hdrop : (P ++ ".exe").data.drop
      ((P ++ ".exe").data.length - (".exe" : String).data.length)
      = (".exe" : String).data := by
    rw [hlen, hdata, List.drop_left]
  have htake : (P ++ ".exe").data.take
      ((P ++ ".exe").data.length - (".exe" : String).data.length)
      = P.data := by
    rw [hlen, hdata, List.take_left]
  unfold stripExe stripSuffixStr
  rw [if_pos ⟨hle, hdrop⟩]
  rw [htake]
  rfl

theorem not_isEmpty_iff_exists_match (m : Monitor) (now : Nat)
    (f : String → Bool) (doms : List String) :
    ((!(domainScanLoop m now f doms []).isEmpty) = true) ↔
      ∃ d ∈ doms, f d = true := by
  constructor
  · intro h
    have hne : domainScanLoop m now f doms [] ≠ [] := by
      intro hnil
      rw [hnil] at h
      simp at h
    rw [ne_eq, domainScanLoop_eq_nil_iff] at hne
    push_neg at hne
    obtain ⟨d, hd, hfd, _⟩ := hne
    exact ⟨d, hd, hfd⟩
  · rintro ⟨d, hd, hfd⟩
    have hne : domainScanLoop m now f doms [] ≠ [] := by
      rw [ne_eq, domainScanLoop_eq_nil_iff]
      push_neg
      exact ⟨d, hd, hfd, by simp⟩
    cases hloop : domainScanLoop m now f doms [] with
    | nil => exact absurd hloop hne
    | cons a l => simp

-- ── Claim C2: resolver-cache probe ───────────────────────────────

/-- Claim C2: for every banned domain `D` that appears (case-insensitively,
via the lowercased cache text) in the resolver-cache output of a cycle, the
probe yields exactly one violation for `D`, every violation it yields has
`kind = Domain` and `action_taken = false`, and the resolver cache is
flushed iff at least one banned domain matched. -/
theorem c2_resolver_cache_probe (m : Monitor) (raw : String) (now : Nat)
    (D : String) (hD : D ∈ m.banned_domains)
    (hMatch : strContains (lowerStr raw) D = true) :
    (scan_dns_cache m (some raw) now).1.countP (fun v => v.target == D) = 1 ∧
    (∀ v ∈ (scan_dns_cache m (some raw) now).1,
      v.kind = ViolationKind.domain ∧ v.action_taken = false) ∧
    ((scan_dns_cache m (some raw) now).2 = true ↔
      ∃ d ∈ m.banned_domains, strContains (lowerStr raw) d = true) := by
  refine ⟨?_, ?_, ?_⟩
  · show (domainScanLoop m now (dnsMatch raw) m.banned_domains []).countP _ = 1
    rw [countP_domainScanLoop]
    have : dnsMatch raw D = true := hMatch
    simp [this, hD]
  · intro v hv
    have hv' : v ∈ domainScanLoop m now (dnsMatch raw) m.banned_domains [] := hv
    exact ⟨(mem_domainScanLoop hv').1, (mem_domainScanLoop hv').2.1⟩
  · show ((!(domainScanLoop m now (dnsMatch raw) m.banned_domains []).isEmpty) = true) ↔ _
    rw [not_isEmpty_iff_exists_match]
    exact Iff.rfl

/-- Witness for C2: banned domain `roblox.com` appearing in upper case in
the cache text yields exactly one violation. -/
theorem c2_resolver_cache_probe_witness :
    (scan_dns_cache
        { sys := [], banned_procs := [], banned_domains := ["roblox.com"],
          hostname := "pc1", username := "u1" }
        (some "Record Name: QUIZ.ROBLOX.COM, TTL 60") 0).1.countP
      (fun v => v.target == "roblox.com") = 1 :=
  (c2_resolver_cache_probe
    { sys := [], banned_procs := [], banned_domains := ["roblox.com"],
      hostname := "pc1", username := "u1" }
    "Record Name: QUIZ.ROBLOX.COM, TTL 60" 0 "roblox.com"
    (by decide) (by decide)).1

-- ── Claim C5: window-title probe ─────────────────────────────────

/-- Claim C5: the window-title probe matches the lowercased concatenated
title text against a banned domain in full or against its first label, and
yields exactly one `action_taken = false` domain violation per banned
domain per cycle, however many times the substring occurs. -/
theorem c5_window_title_probe (m : Monitor) (raw : String) (now : Nat)
    (D : String) (hD : D ∈ m.banned_domains)
    (hMatch : (strContains (lowerStr raw) D
      || strContains (lowerStr raw) (firstLabel D)) = true) :
    (scan_window_titles m (some raw) now).countP (fun v => v.target == D) = 1 ∧
    ∀ v ∈ scan_window_titles m (some raw) now,
      v.kind = ViolationKind.domain ∧ v.action_taken = false := by
  constructor
  · show (domainScanLoop m now (titleMatch raw) m.banned_domains []).countP _ = 1
    rw [countP_domainScanLoop]
    have : titleMatch raw D = true := hMatch
    simp [this, hD]
  · intro v hv
    have hv' : v ∈ domainScanLoop m now (titleMatch raw) m.banned_domains [] := hv
    exact ⟨(mem_domainScanLoop hv').1, (mem_domainScanLoop hv').2.1⟩

/-- Witness for C5, using the spec's example: a title text containing
`quiz.roblox.com/play` (twice) matches ban entry `roblox.com` exactly
once. -/
theorem c5_window_title_probe_witness :
    (scan_window_titles
        { sys := [], banned_procs := [], banned_domains := ["roblox.com"],
          hostname := "pc1", username := "u1" }
        (some "quiz.roblox.com/play - Chrome quiz.roblox.com/play - Edge") 0).countP
      (fun v => v.target == "roblox.com") = 1 :=
  (c5_window_title_probe
    { sys := [], banned_procs := [], banned_domains := ["roblox.com"],
      hostname := "pc1", username := "u1" }
    "quiz.roblox.com/play - Chrome quiz.roblox.com/play - Edge" 0 "roblox.com"
    (by decide) (by decide)).1

-- ── Claim C1: process probe (corrected) ──────────────────────────

/-- Ban list containing `roblox`, as `Monitor::new`/`update_bans` store it. -/
def monitorEx : Monitor :=
  { sys := [], banned_procs := ["roblox"], banned_domains := [],
    hostname := "pc1", username := "u1" }

/-- Two running processes both offending the banned name `roblox`: one named
exactly `roblox`, one named `ROBLOX.EXE`. -/
def procsEx : List ProcEntry :=
  [{ pid := 101, name := "roblox", killOk := true },
   { pid := 202, name := "ROBLOX.EXE", killOk := true }]

/-- Counterexample to C1 as stated: with banned process name `roblox` and a
cycle observing a process named `roblox` (and another named `ROBLOX.EXE`),
the probe produces two `kind = Process` violations in the cycle, not exactly
one — `scan_processes` has no per-cycle dedup, unlike the domain probes. -/
theorem c1_process_probe_counterexample :
    "roblox" ∈ monitorEx.banned_procs ∧
    (∃ p ∈ procsEx, lowerStr p.name = "roblox") ∧
    (scan_processes monitorEx procsEx 0).1.countP
      (fun v => v.kind == ViolationKind.process) = 2 ∧
    ¬((scan_processes monitorEx procsEx 0).1.countP
      (fun v => v.kind == ViolationKind.process) = 1) := by
  refine ⟨by decide, ⟨{ pid := 101, name := "roblox", killOk := true }, by decide, by decide⟩, by decide, by decide⟩

/-- Claim C1 (amended): the probe emits one `kind = Process` violation per
matching observed process — with termination attempted and `action_taken`
the kill result — rather than one per banned name per cycle; a process
matches when its lowercased name, with or without the `.exe` suffix, is
banned.  Per-cycle uniqueness holds exactly when one observed process
matches. -/
theorem c1_process_probe_amended (m : Monitor) (fresh : List ProcEntry) (now : Nat) :
    (scan_processes m fresh now).1.length
      = (fresh.filter (fun p => procBanned { m with sys := fresh } p)).length ∧
    (∀ v ∈ (scan_processes m fresh now).1, v.kind = ViolationKind.process) ∧
    (∀ p ∈ fresh, procBanned { m with sys := fresh } p = true →
      mkProcViolation { m with sys := fresh } now p ∈ (scan_processes m fresh now).1 ∧
      (mkProcViolation { m with sys := fresh } now p).action_taken = p.killOk ∧
      (mkProcViolation { m with sys := fresh } now p).target = lowerStr p.name) ∧
    (∀ P p, P ∈ m.banned_procs →
      (lowerStr p.name = P ∨ lowerStr p.name = P ++ ".exe") →
      procBanned { m with sys := fresh } p = true) := by
  refine ⟨?_, ?_, ?_, ?_⟩
  · simp [scan_processes]
  · intro v hv
    simp only [scan_processes, List.mem_map] at hv
    obtain ⟨p, _, rfl⟩ := hv
    rfl
  · intro p hp hbanned
    refine ⟨?_, rfl, rfl⟩
    simp only [scan_processes, List.mem_map]
    exact ⟨p, List.mem_filter.mpr ⟨hp, hbanned⟩, rfl⟩
  · intro P p hP hname
    rcases hname with hname | hname
    · have hcon : m.banned_procs.contains (lowerStr p.name) = true := by
        rw [hname]
        exact contains_eq_true_iff.mpr hP
      simp only [procBanned, hcon, Bool.or_true]
    · have hcon : m.banned_procs.contains (stripExe (lowerStr p.name)) = true := by
        rw [hname, stripExe_append_exe]
        exact contains_eq_true_iff.mpr hP
      simp only [procBanned, hcon, Bool.true_or]

/-- Witness for the amended C1 at the concrete two-process cycle: both
matching processes appear in the output, whose length is 2. -/
theorem c1_process_probe_amended_witness :
    (scan_processes monitorEx procsEx 0).1.length = 2 ∧
    mkProcViolation { monitorEx with sys := procsEx } 0
        { pid := 202, name := "ROBLOX.EXE", killOk := true }
      ∈ (scan_processes monitorEx procsEx 0).1 :=
  ⟨by
    rw [(c1_process_probe_amended monitorEx procsEx 0).1]
    decide,
   ((c1_process_probe_amended monitorEx procsEx 0).2.2.1
      { pid := 202, name := "ROBLOX.EXE", killOk := true }
      (by decide) (by decide)).1⟩

-- ── Claim C10: frame effect of scans, replacement by update_bans ──

/-- Claim C10: `full_scan` (and the process scan it contains) leaves the ban
sets, hostname and username unchanged — only the process snapshot of the
`sysinfo` handle moves — while `update_bans` wholly replaces both ban sets
with the lowercased forms of the supplied lists, independently of the
previous sets, and leaves everything else unchanged. -/
theorem c10_frame_and_replacement (m m2 : Monitor) (fresh : List ProcEntry)
    (cacheText titlesText : Option String) (now : Nat) (ps ds : List String) :
    ((full_scan m fresh cacheText titlesText now).2.banned_procs = m.banned_procs ∧
     (full_scan m fresh cacheText titlesText now).2.banned_domains = m.banned_domains ∧
     (full_scan m fresh cacheText titlesText now).2.hostname = m.hostname ∧
     (full_scan m fresh cacheText titlesText now).2.username = m.username) ∧
    ((scan_processes m fresh now).2.banned_procs = m.banned_procs ∧
     (scan_processes m fresh now).2.banned_domains = m.banned_domains ∧
     (scan_processes m fresh now).2.hostname = m.hostname ∧
     (scan_processes m fresh now).2.username = m.username) ∧
    ((update_bans m ps ds).hostname = m.hostname ∧
     (update_bans m ps ds).username = m.username ∧
     (update_bans m ps ds).sys = m.sys) ∧
    ((update_bans m ps ds).banned_procs = (update_bans m2 ps ds).banned_procs ∧
     (update_bans m ps ds).banned_domains = (update_bans m2 ps ds).banned_domains) ∧
    (∀ x, x ∈ (update_bans m ps ds).banned_procs ↔ ∃ y ∈ ps, lowerStr y = x) ∧
    (∀ x, x ∈ (update_bans m ps ds).banned_domains ↔ ∃ y ∈ ds, lowerStr y = x) := by
  refine ⟨⟨rfl, rfl, rfl, rfl⟩, ⟨rfl, rfl, rfl, rfl⟩, ⟨rfl, rfl, rfl⟩, ⟨rfl, rfl⟩, ?_, ?_⟩
  · intro x
    simp [update_bans, List.mem_dedup, List.mem_map]
  · intro x
    simp [update_bans, List.mem_dedup, List.mem_map]

-- ── SHA-256 (`sha256_hash` in `ws_stream.rs`) ────────────────────

/-- Truncation to a 32-bit word. -/
def w32 (x : Nat) : Nat := x % 4294967296

/-- Right rotation of a 32-bit word. -/
def rotr32 (n x : Nat) : Nat := w32 ((x >>> n) ||| (x <<< (32 - n)))

/-- SHA-256 lowercase sigma-0. -/
def sSig0 (x : Nat) : Nat := (rotr32 7 x) ^^^ (rotr32 18 x) ^^^ (x >>> 3)

/-- SHA-256 lowercase sigma-1. -/
def sSig1 (x : Nat) : Nat := (rotr32 17 x) ^^^ (rotr32 19 x) ^^^ (x >>> 10)

/-- SHA-256 uppercase Sigma-0. -/
def bSig0 (x : Nat) : Nat := (rotr32 2 x) ^^^ (rotr32 13 x) ^^^ (rotr32 22 x)

/-- SHA-256 uppercase Sigma-1. -/
def bSig1 (x : Nat) : Nat := (rotr32 6 x) ^^^ (rotr32 11 x) ^^^ (rotr32 25 x)

/-- SHA-256 round constants (FIPS 180-4), written in decimal. -/
def shaK : List Nat :=
  [
   1116352408, 1899447441, 3049323471, 3921009573, 961987163,
   1508970993, 2453635748, 2870763221, 3624381080, 310598401,
   607225278, 1426881987, 1925078388, 2162078206, 2614888103,
   3248222580, 3835390401, 4022224774, 264347078, 604807628,
   770255983, 1249150122, 1555081692, 1996064986, 2554220882,
   2821834349, 2952996808, 3210313671, 3336571891, 3584528711,
   113926993, 338241895, 666307205, 773529912, 1294757372,
   1396182291, 1695183700, 1986661051, 2177026350, 2456956037,
   2730485921, 2820302411, 3259730800, 3345764771, 3516065817,
   3600352804, 4094571909, 275423344, 430227734, 506948616,
   659060556, 883997877, 958139571, 1322822218, 1537002063,
   1747873779, 1955562222, 2024104815, 2227730452, 2361852424,
   2428436474, 2756734187, 3204031479, 3329325298]

/-- SHA-256 initial hash state (FIPS 180-4), written in decimal. -/
def shaH0 : List Nat :=
  [
   1779033703, 3144134277, 1013904242,
   2773480762, 1359893119, 2600822924,
   528734635, 1541459225]

/-- Big-endian 64-bit length field. -/
def be8 (n : Nat) : List Nat :=
  [(n >>> 56) % 256, (n >>> 48) % 256, (n >>> 40) % 256, (n >>> 32) % 256,
   (n >>> 24) % 256, (n >>> 16) % 256, (n >>> 8) % 256, n % 256]

/-- SHA-256 message padding: `0x80`, zeros to 56 mod 64, 64-bit bit-length. -/
def shaPad (msg : List Nat) : List Nat :=
  msg ++ (128 :: List.replicate ((119 - msg.length % 64) % 64) 0) ++ be8 (8 * msg.length)

/-- Split a byte list into 64-byte blocks; the fuel (first argument of the
worker) only encodes termination and is always sufficient. -/
def chunkGo : Nat → List Nat → List (List Nat)
  | 0, _ => []
  | fuel + 1, l => if l = [] then [] else l.take 64 :: chunkGo fuel (l.drop 64)

/-- Split a byte list into 64-byte blocks. -/
def chunk64 (l : List Nat) : List (List Nat) :=
  chunkGo (l.length + 1) l

/-- Big-endian combination of bytes into 32-bit words. -/
def bytesToWords : List Nat → List Nat
  | b0 :: b1 :: b2 :: b3 :: rest =>
    ((b0 <<< 24) ||| (b1 <<< 16) ||| (b2 <<< 8) ||| b3) :: bytesToWords rest
  | _ => []

/-- Extend the 16-word message block by `rounds` schedule words. -/
def extendSched (ws : List Nat) : Nat → List Nat
  | 0 => ws
  | r + 1 =>
    let i := ws.length
    extendSched
      (ws ++ [w32 (sSig1 (ws.getD (i - 2) 0) + ws.getD (i - 7) 0
        + sSig0 (ws.getD (i - 15) 0) + ws.getD (i - 16) 0)]) r

/-- The eight SHA-256 working variables. -/
structure Sha8 where
  a : Nat
  b : Nat
  c : Nat
  d : Nat
  e : Nat
  f : Nat
  g : Nat
  h : Nat
deriving DecidableEq

/-- One SHA-256 compression round. -/
def shaRound (wi ki : Nat) (s : Sha8) : Sha8 :=
  let ch := (s.e &&& s.f) ^^^ ((s.e ^^^ 4294967295) &&& s.g)
  let t1 := w32 (s.h + bSig1 s.e + ch + ki + wi)
  let maj := (s.a &&& s.b) ^^^ (s.a &&& s.c) ^^^ (s.b &&& s.c)
  let t2 := w32 (bSig0 s.a + maj)
  { a := w32 (t1 + t2), b := s.a, c := s.b, d := s.c,
    e := w32 (s.d + t1), f := s.e, g := s.f, h := s.g }

/-- Compress one 64-byte block into the running state (8 words). -/
def compressBlock (st : List Nat) (block : List Nat) : List Nat :=
  let ws := extendSched (bytesToWords block) 48
  let s0 : Sha8 :=
    { a := st.getD 0 0, b := st.getD 1 0, c := st.getD 2 0, d := st.getD 3 0,
      e := st.getD 4 0, f := st.getD 5 0, g := st.getD 6 0, h := st.getD 7 0 }
  let sf := (List.range 64).foldl
    (fun s i => shaRound (ws.getD i 0) (shaK.getD i 0) s) s0
  [w32 (st.getD 0 0 + sf.a), w32 (st.getD 1 0 + sf.b),
   w32 (st.getD 2 0 + sf.c), w32 (st.getD 3 0 + sf.d),
   w32 (st.getD 4 0 + sf.e), w32 (st.getD 5 0 + sf.f),
   w32 (st.getD 6 0 + sf.g), w32 (st.getD 7 0 + sf.h)]

/-- SHA-256 digest of a byte list, as 32 bytes. -/
def sha256bytes (msg : List Nat) : List Nat :=
  (((chunk64 (shaPad msg)).foldl compressBlock shaH0).map
    (fun w => [(w >>> 24) % 256, (w >>> 16) % 256, (w >>> 8) % 256, w % 256])).flatten

/-- Lowercase hexadecimal digit. -/
def hexChar (n : Nat) : Char :=
  if n < 10 then Char.ofNat (48 + n) else Char.ofNat (87 + n)

/-- `sha256_hash` from `ws_stream.rs`: `format!("{:x}", hasher.finalize())`
— the digest as a lowercase-hex string of 64 characters. -/
def sha256hex (msg : List Nat) : String :=
  String.mk (((sha256bytes msg).map (fun b => [hexChar ((b / 16) % 16), hexChar (b % 16)])).flatten)

set_option maxRecDepth 100000 in
/-- Sanity: the well-known SHA-256 digest of the empty message. -/
theorem sha256hex_nil_vector :
    sha256hex [] = "e3b0c44298fc1c149afbf4c8996fb92427ae41e4649b934ca495991b7852b855" := by
  decide

set_option maxRecDepth 100000 in
/-- Sanity: the well-known SHA-256 digest of the ASCII bytes of `abc`. -/
theorem sha256hex_abc_vector :
    sha256hex [97, 98, 99]
      = "ba7816bf8f01cfea414140de5dae2223b00361a396177a9cb410ff61f20015ad" := by
  decide

theorem length_compressBlock (st block : List Nat) :
    (compressBlock st block).length = 8 := rfl

theorem length_foldl_compress (chunks : List (List Nat)) :
    ∀ st : List Nat, st.length = 8 →
      ((chunks.foldl compressBlock st).length = 8) := by
  induction chunks with
  | nil => intro st h; simpa using h
  | cons c cs ih =>
    intro st h
    rw [List.foldl_cons]
    exact ih _ (length_compressBlock st c)

theorem length_flatten_quad (l : List Nat) :
    ((l.map (fun w => [(w >>> 24) % 256, (w >>> 16) % 256, (w >>> 8) % 256, w % 256])).flatten).length
      = 4 * l.length := by
  induction l with
  | nil => simp
  | cons a l ih =>
    simp only [List.map_cons, List.flatten_cons, List.length_append, ih,
      List.length_cons]
    simp
    ring

theorem length_sha256bytes (msg : List Nat) : (sha256bytes msg).length = 32 := by
  unfold sha256bytes
  rw [length_flatten_quad, length_foldl_compress _ shaH0 rfl]

theorem length_flatten_pair (l : List Nat) :
    ((l.map (fun b => [hexChar ((b / 16) % 16), hexChar (b % 16)])).flatten).length
      = 2 * l.length := by
  induction l with
  | nil => simp
  | cons a l ih =>
    simp only [List.map_cons, List.flatten_cons, List.length_append, ih,
      List.length_cons]
    simp
    ring

theorem sha256hex_ne_empty (msg : List Nat) : sha256hex msg ≠ "" := by
  intro h
  have h2 : ((sha256bytes msg).map
      (fun b => [hexChar ((b / 16) % 16), hexChar (b % 16)])).flatten = ([] : List Char) :=
    congrArg String.data h
  have h3 := congrArg List.length h2
  rw [length_flatten_pair, length_sha256bytes] at h3
  simp at h3

-- ── Streaming session (`ws_stream.rs`) ───────────────────────────

/-- One message on the WebSocket wire: `Message::Text` or `Message::Binary`. -/
inductive WireMsg where
  | text (s : String)
  | binary (b : List Nat)
deriving DecidableEq

/-- One iteration of the frame loop in `connect_and_stream`, as decided by
the environment: the capture fails (`continue`), the JPEG compression fails
(`continue`), or a frame with the given encoded bytes is produced and a
send of it would succeed or fail. -/
inductive FrameEvent where
  | captureFail
  | compressFail
  | frame (bytes : List Nat) (sendOk : Bool)
deriving DecidableEq

/-- The environment of one connection attempt: whether `connect_async`
succeeds, whether sending the handshake succeeds, and the observed frame
events of the streaming loop. -/
structure ConnEnv where
  connectOk : Bool
  handshakeSendOk : Bool
  events : List FrameEvent
deriving DecidableEq

/-- The serialized handshake `serde_json::json!({"role": "student",
"hostname": hostname})` — `serde_json` orders object keys alphabetically. -/
def handshakeText (hostname : String) : String :=
  "\x7b\"hostname\":\"" ++ hostname ++ "\",\"role\":\"student\"\x7d"

/-- The frame loop of `connect_and_stream`: `last` is `last_hash` (initially
`""`).  A frame whose SHA-256 hex equals `last` is skipped; otherwise it is
sent and becomes the new `last_hash`; a failed send ends the session right
after the attempt. -/
def streamLoop : String → List FrameEvent → List WireMsg
  | _, [] => []
  | last, FrameEvent.captureFail :: rest => streamLoop last rest
  | last, FrameEvent.compressFail :: rest => streamLoop last rest
  | last, FrameEvent.frame b ok :: rest =>
    if sha256hex b = last then streamLoop last rest
    else if ok then WireMsg.binary b :: streamLoop (sha256hex b) rest
    else [WireMsg.binary b]

/-- `connect_and_stream`: on connection failure nothing is sent; otherwise
the JSON handshake is the first message, followed by the frame loop with a
fresh (empty) `last_hash`. -/
def connect_and_stream (hostname : String) (env : ConnEnv) : List WireMsg :=
  if !env.connectOk then []
  else if !env.handshakeSendOk then [WireMsg.text (handshakeText hostname)]
  else WireMsg.text (handshakeText hostname) :: streamLoop "" env.events

/-- One iteration of `run_streaming_loop`: the messages attempted on that
connection, then the wait before reconnecting. -/
structure LoopStep where
  msgs : List WireMsg
  waitSecs : Nat
deriving DecidableEq

/-- `run_streaming_loop`: every connection opportunity gives one session
followed by a wait of exactly `reconnect_secs`, with no state carried
between iterations. -/
def run_streaming_loop (hostname : String) (reconnectSecs : Nat)
    (envs : List ConnEnv) : List LoopStep :=
  envs.map (fun env =>
    { msgs := connect_and_stream hostname env, waitSecs := reconnectSecs })

/-- The binary payloads (encoded frames) of a wire trace. -/
def binPayloads (msgs : List WireMsg) : List (List Nat) :=
  msgs.filterMap (fun msg =>
    match msg with
    | WireMsg.binary b => some b
    | WireMsg.text _ => none)

theorem binPayloads_nil : binPayloads [] = [] := rfl

theorem binPayloads_cons_binary (b : List Nat) (msgs : List WireMsg) :
    binPayloads (WireMsg.binary b :: msgs) = b :: binPayloads msgs := rfl

theorem binPayloads_cons_text (s : String) (msgs : List WireMsg) :
    binPayloads (WireMsg.text s :: msgs) = binPayloads msgs := rfl

theorem streamLoop_all_binary :
    ∀ (events : List FrameEvent) (last : String) (msg : WireMsg),
      msg ∈ streamLoop last events → ∃ b, msg = WireMsg.binary b := by
  intro events
  induction events with
  | nil => intro last msg h; simp [streamLoop] at h
  | cons ev rest ih =>
    intro last msg h
    cases ev with
    | captureFail => rw [streamLoop] at h; exact ih last msg h
    | compressFail => rw [streamLoop] at h; exact ih last msg h
    | frame b ok =>
      rw [streamLoop] at h
      by_cases hb : sha256hex b = last
      · rw [if_pos hb] at h
        exact ih last msg h
      · rw [if_neg hb] at h
        by_cases hok : ok = true
        · rw [if_pos hok] at h
          rcases List.mem_cons.mp h with rfl | h'
          · exact ⟨b, rfl⟩
          · exact ih (sha256hex b) msg h'
        · rw [if_neg hok] at h
          rcases List.mem_cons.mp h with rfl | h'
          · exact ⟨b, rfl⟩
          · simp at h'

theorem streamLoop_head_hash :
    ∀ (events : List FrameEvent) (last : String) (p : List Nat),
      (binPayloads (streamLoop last events)).head? = some p →
        sha256hex p ≠ last := by
  intro events
  induction events with
  | nil => intro last p h; simp [streamLoop, binPayloads] at h
  | cons ev rest ih =>
    intro last p h
    cases ev with
    | captureFail => rw [streamLoop] at h; exact ih last p h
    | compressFail => rw [streamLoop] at h; exact ih last p h
    | frame b ok =>
      rw [streamLoop] at h
      by_cases hb : sha256hex b = last
      · rw [if_pos hb] at h
        exact ih last p h
      · rw [if_neg hb] at h
        by_cases hok : ok = true
        · rw [if_pos hok, binPayloads_cons_binary] at h
          simp only [List.head?_cons, Option.some.injEq] at h
          subst h
          exact hb
        · rw [if_neg hok, binPayloads_cons_binary, binPayloads_nil] at h
          simp only [List.head?_cons, Option.some.injEq] at h
          subst h
          exact hb

theorem streamLoop_chain :
    ∀ (events : List FrameEvent) (last : String),
      List.Chain' (fun x y => x ≠ y) (binPayloads (streamLoop last events)) := by
  intro events
  induction events with
  | nil => intro last; simp [streamLoop, binPayloads]
  | cons ev rest ih =>
    intro last
    cases ev with
    | captureFail => rw [streamLoop]; exact ih last
    | compressFail => rw [streamLoop]; exact ih last
    | frame b ok =>
      rw [streamLoop]
      by_cases hb : sha256hex b = last
      · rw [if_pos hb]; exact ih last
      · rw [if_neg hb]
        by_cases hok : ok = true
        · rw [if_pos hok, binPayloads_cons_binary]
          rw [List.chain'_cons']
          refine ⟨?_, ih (sha256hex b)⟩
          intro y hy
          have hne := streamLoop_head_hash rest (sha256hex b) y hy
          intro hby
          exact hne (congrArg sha256hex hby.symm)
        · rw [if_neg hok, binPayloads_cons_binary, binPayloads_nil]
          exact List.chain'_singleton b

-- ── Claim C3: frame dedup within a connection, reset across ──────

/-- Claim C3: within one connection the session never attempts two
byte-identical consecutive encoded frames (a frame whose bytes hash equal to
the previous sent frame's hash is skipped), and because `last_hash` is a
local of `connect_and_stream` re-initialised to `""` on every connection —
and no SHA-256 hex digest is empty — the first produced frame after a
(re)connect is always sent, whatever was sent on any previous connection. -/
theorem c3_frame_dedup_and_reset (host : String) (env : ConnEnv) :
    List.Chain' (fun x y => x ≠ y) (binPayloads (connect_and_stream host env)) ∧
    (∀ b ok rest, env.connectOk = true → env.handshakeSendOk = true →
      env.events = FrameEvent.frame b ok :: rest →
      ∃ tail, connect_and_stream host env
        = WireMsg.text (handshakeText host) :: WireMsg.binary b :: tail) := by
  constructor
  · unfold connect_and_stream
    by_cases hc : env.connectOk = true
    · by_cases hh : env.handshakeSendOk = true
      · simp only [hc, hh, Bool.not_true, Bool.false_eq_true, if_false,
          binPayloads_cons_text]
        exact streamLoop_chain env.events ""
      · simp only [hc, Bool.not_true, Bool.false_eq_true, if_false]
        rw [Bool.not_eq_true] at hh
        simp [hh, binPayloads]
    · rw [Bool.not_eq_true] at hc
      simp [hc, binPayloads]
  · intro b ok rest hc hh hev
    have h1 : connect_and_stream host env
        = WireMsg.text (handshakeText host)
          :: streamLoop "" (FrameEvent.frame b ok :: rest) := by
      unfold connect_and_stream
      rw [hc, hh, hev]
      simp
    rw [h1, streamLoop, if_neg (sha256hex_ne_empty b)]
    by_cases hok : ok = true
    · rw [if_pos hok]
      exact ⟨streamLoop (sha256hex b) rest, rfl⟩
    · rw [if_neg hok]
      exact ⟨[], rfl⟩

/-- Connection environment for the C3 witness: a successful connect and
handshake followed by one produced frame. -/
def envFrameEx : ConnEnv :=
  { connectOk := true, handshakeSendOk := true,
    events := [FrameEvent.frame [7] true] }

/-- Witness for C3: on a fresh connection the first produced frame is sent
right after the handshake. -/
theorem c3_frame_dedup_and_reset_witness :
    ∃ tail, connect_and_stream "pc1" envFrameEx
      = WireMsg.text (handshakeText "pc1") :: WireMsg.binary [7] :: tail :=
  (c3_frame_dedup_and_reset "pc1" envFrameEx).2 [7] true [] rfl rfl rfl

-- ── Claim C7: handshake-first sessions, fixed-wait unbounded retry ─

/-- Claim C7: every connection that opens sends exactly one textual message
— the `{role, hostname}` handshake — before any binary frame (a failed
connect sends nothing), no reply is consumed, and every session of the
reconnect loop, failed or not, is followed by a wait of exactly the
configured `reconnect_secs`; the loop serves every connection opportunity
(no give-up state, no backoff growth). -/
theorem c7_handshake_and_reconnect (host : String) (reconnectSecs : Nat)
    (envs : List ConnEnv) :
    (run_streaming_loop host reconnectSecs envs).length = envs.length ∧
    ∀ step ∈ run_streaming_loop host reconnectSecs envs,
      step.waitSecs = reconnectSecs ∧
      (step.msgs = [] ∨
        ∃ bins, step.msgs = WireMsg.text (handshakeText host) :: bins ∧
          ∀ msg ∈ bins, ∃ b, msg = WireMsg.binary b) := by
  constructor
  · simp [run_streaming_loop]
  · intro step hstep
    simp only [run_streaming_loop, List.mem_map] at hstep
    obtain ⟨env, _, rfl⟩ := hstep
    refine ⟨rfl, ?_⟩
    show connect_and_stream host env = [] ∨ _
    unfold connect_and_stream
    by_cases hc : env.connectOk = true
    · by_cases hh : env.handshakeSendOk = true
      · right
        refine ⟨streamLoop "" env.events, by simp [hc, hh], ?_⟩
        intro msg hmsg
        exact streamLoop_all_binary env.events "" msg hmsg
      · right
        rw [Bool.not_eq_true] at hh
        exact ⟨[], by simp [hc, hh], by intro msg hmsg; simp at hmsg⟩
    · left
      rw [Bool.not_eq_true] at hc
      simp [hc]

/-- Connection environment for the C7 witness: connect and handshake
succeed, no frames observed. -/
def envHsEx : ConnEnv :=
  { connectOk := true, handshakeSendOk := true, events := [] }

/-- Witness for C7: on a successful connection the trace starts with the
handshake text and all later messages are binary. -/
theorem c7_handshake_and_reconnect_witness :
    ∃ bins, ({ msgs := connect_and_stream "pc1" envHsEx, waitSecs := 4 } : LoopStep).msgs
        = WireMsg.text (handshakeText "pc1") :: bins ∧
      ∀ msg ∈ bins, ∃ b, msg = WireMsg.binary b := by
  have h := (c7_handshake_and_reconnect "pc1" 4 [envHsEx]).2
    { msgs := connect_and_stream "pc1" envHsEx, waitSecs := 4 } (by decide)
  rcases h.2 with h2 | h2
  · exact absurd h2 (by decide)
  · exact h2

-- ── Frame codec: capture retry (`screenshot.rs`) ─────────────────

/-- Outcome of one acquisition attempt in `capture_screenshot`
(`screenshot.rs` lines 14-32): a captured image, a failure from
`Screen::all()` or `capture()` (which updates `last_err`), or an empty
screen list (which leaves `last_err` unchanged). -/
inductive CapOutcome (α : Type) where
  | ok (img : α)
  | fail (e : String)
  | noScreens
deriving DecidableEq

/-- The retry loop of `capture_screenshot`: `for attempt in 0..3`, break on
success, remember the last error, sleep 500 ms between attempts
(`attempt < 2`).  The second component is the list of sleeps performed, in
milliseconds. -/
def captureLoop {α : Type} (o : Nat → CapOutcome α) :
    Nat → String → Nat → Except String α × List Nat
  | _, lastErr, 0 => (Except.error lastErr, [])
  | attempt, lastErr, rem + 1 =>
    match o attempt with
    | CapOutcome.ok img => (Except.ok img, [])
    | CapOutcome.fail e =>
      if attempt < 2 then
        let r := captureLoop o (attempt + 1) e rem
        (r.1, 500 :: r.2)
      else (Except.error e, [])
    | CapOutcome.noScreens =>
      if attempt < 2 then
        let r := captureLoop o (attempt + 1) lastErr rem
        (r.1, 500 :: r.2)
      else (Except.error lastErr, [])

/-- The acquisition part of `capture_screenshot` (`screenshot.rs:8-35`):
three attempts starting from `last_err = "No screens found"`; the encode
stage that follows is modeled by `snapshotPipeline`. -/
def capture_screenshot {α : Type} (o : Nat → CapOutcome α) :
    Except String α × List Nat :=
  captureLoop o 0 "No screens found" 3

-- ── Claim C4: bounded capture retry with fixed delay ──────────────

/-- Claim C4: `capture()` performs at most three attempts with a fixed
500 ms delay between consecutive attempts; if the first two attempts fail
and the third succeeds it returns the third attempt's image (the earlier
failures are not surfaced), and if all three fail it fails with the last
capture error.  The result never depends on any attempt beyond the third. -/
theorem c4_capture_retry {α : Type} (o : Nat → CapOutcome α) :
    ((capture_screenshot o).2.length ≤ 2 ∧
      ∀ d ∈ (capture_screenshot o).2, d = 500) ∧
    (∀ e1 e2 (img : α), o 0 = CapOutcome.fail e1 → o 1 = CapOutcome.fail e2 →
      o 2 = CapOutcome.ok img →
      capture_screenshot o = (Except.ok img, [500, 500])) ∧
    (∀ e1 e2 e3, o 0 = CapOutcome.fail e1 → o 1 = CapOutcome.fail e2 →
      o 2 = CapOutcome.fail e3 →
      capture_screenshot o = (Except.error e3, [500, 500])) := by
  refine ⟨?_, ?_, ?_⟩
  · rcases h0 : o 0 with img0 | e0 | _ <;>
      rcases h1 : o 1 with img1 | e1 | _ <;>
      rcases h2 : o 2 with img2 | e2 | _ <;>
      simp [capture_screenshot, captureLoop, h0, h1, h2]
  · intro e1 e2 img h0 h1 h2
    simp [capture_screenshot, captureLoop, h0, h1, h2]
  · intro e1 e2 e3 h0 h1 h2
    simp [capture_screenshot, captureLoop, h0, h1, h2]

/-- Attempt oracle that fails twice, then succeeds. -/
def oFailTwiceEx : Nat → CapOutcome Nat :=
  fun i => if i = 0 then CapOutcome.fail "enum race"
    else if i = 1 then CapOutcome.fail "enum race again"
    else CapOutcome.ok 37

/-- Witness for C4: failing twice and succeeding on the third attempt
returns the third attempt's image after two 500 ms sleeps. -/
theorem c4_capture_retry_witness :
    capture_screenshot oFailTwiceEx = (Except.ok 37, [500, 500]) :=
  (c4_capture_retry oFailTwiceEx).2.1 "enum race" "enum race again" 37
    (by decide) (by decide) (by decide)

-- ── Frame codec: encode pipelines (`screenshot.rs` / `ws_stream.rs`) ─

/-- Resampling filters used by the two encode paths. -/
inductive ResampleKind where
  | triangle
  | lanczos3
deriving DecidableEq

/-- One image operation of an encode pipeline.  `resizeFit maxDim f`
stands for `img.resize(new_w, new_h, f)` where `new_w`/`new_h` come from
the f32 ratio formula `max_dim / max(w, h)` — written identically in both
sources, so equal inputs give equal targets. -/
inductive ImgOp where
  | resizeFit (maxDim : Nat) (f : ResampleKind)
  | toRgb8
  | jpegEncode (quality : Nat)
  | base64Encode
deriving DecidableEq

/-- Encode stage of `capture_screenshot` (`screenshot.rs:54-71`): resize
with `FilterType::Lanczos3` only if a dimension exceeds `max_dimension`,
JPEG-encode at `quality`, base64-encode. -/
def snapshotPipeline (w h quality maxDim : Nat) : List ImgOp :=
  (if w > maxDim || h > maxDim then [ImgOp.resizeFit maxDim ResampleKind.lanczos3]
   else []) ++ [ImgOp.jpegEncode quality, ImgOp.base64Encode]

/-- `compress_to_jpeg` (`ws_stream.rs:36-51`): resize with
`FilterType::Triangle` only if a dimension exceeds `max_dim`, convert to
RGB8, JPEG-encode at `quality`; raw bytes, no base64. -/
def streamPipeline (w h quality maxDim : Nat) : List ImgOp :=
  (if w > maxDim || h > maxDim then [ImgOp.resizeFit maxDim ResampleKind.triangle]
   else []) ++ [ImgOp.toRgb8, ImgOp.jpegEncode quality]

/-- `capture_screen` (`ws_stream.rs:23-33`): a single acquisition attempt,
no retry, no sleep. -/
def capture_screen {α : Type} (o : Nat → CapOutcome α) : Except String α :=
  match o 0 with
  | CapOutcome.ok img => Except.ok img
  | CapOutcome.fail e => Except.error e
  | CapOutcome.noScreens => Except.error "No monitors found"

/-- Attempt oracle that fails once, then succeeds. -/
def oRaceEx : Nat → CapOutcome Nat :=
  fun i => if i = 0 then CapOutcome.fail "race" else CapOutcome.ok 37

-- ── Claim C8: the two capture-and-encode paths (corrected) ───────

/-- Counterexample to C8 as stated: with identical parameters
(3840×2160 frame, quality 60, max dimension 1280) the two paths apply
different operations — Lanczos3 + base64 on the snapshot path versus
Triangle + RGB8 conversion on the streaming path — so they do not produce
the same encoded result; and their retry policies differ: an attempt
sequence failing once then succeeding yields a successful capture on the
periodic path (after one 500 ms sleep) but an error on the streaming
path. -/
theorem c8_paths_counterexample :
    snapshotPipeline 3840 2160 60 1280 ≠ streamPipeline 3840 2160 60 1280 ∧
    capture_screenshot oRaceEx = (Except.ok 37, [500]) ∧
    capture_screen oRaceEx = Except.error "race" :=
  ⟨by decide, rfl, rfl⟩

/-- Claim C8 (amended): the two paths share the resize-iff-exceeds rule
(with the same f32 ratio formula) and JPEG encoding at the configured
quality, but are otherwise different: the periodic path retries acquisition
(up to three attempts, 500 ms apart), resizes with Lanczos3 and
base64-encodes, while the streaming path acquires once without retry,
resizes with Triangle and converts to RGB8 before encoding raw JPEG
bytes. -/
theorem c8_paths_amended (w h q maxDim : Nat) :
    ((w ≤ maxDim ∧ h ≤ maxDim) →
      snapshotPipeline w h q maxDim = [ImgOp.jpegEncode q, ImgOp.base64Encode] ∧
      streamPipeline w h q maxDim = [ImgOp.toRgb8, ImgOp.jpegEncode q]) ∧
    ((w > maxDim ∨ h > maxDim) →
      snapshotPipeline w h q maxDim
        = [ImgOp.resizeFit maxDim ResampleKind.lanczos3, ImgOp.jpegEncode q,
           ImgOp.base64Encode] ∧
      streamPipeline w h q maxDim
        = [ImgOp.resizeFit maxDim ResampleKind.triangle, ImgOp.toRgb8,
           ImgOp.jpegEncode q]) ∧
    (∀ (α : Type) (o : Nat → CapOutcome α) (e : String) (img : α),
      o 0 = CapOutcome.fail e → o 1 = CapOutcome.ok img →
      (capture_screenshot o).1 = Except.ok img ∧
      capture_screen o = Except.error e) := by
  refine ⟨?_, ?_, ?_⟩
  · intro hle
    have hcond : (w > maxDim || h > maxDim) = false := by
      simp [Nat.not_lt.mpr hle.1, Nat.not_lt.mpr hle.2]
    simp [snapshotPipeline, streamPipeline, hcond]
  · intro hgt
    have hcond : (w > maxDim || h > maxDim) = true := by
      rcases hgt with hgt | hgt <;> simp [hgt]
    simp [snapshotPipeline, streamPipeline, hcond]
  · intro α o e img h0 h1
    constructor
    · simp [capture_screenshot, captureLoop, h0, h1]
    · simp [capture_screen, h0]

/-- Witness for the amended C8: at 3840×2160, quality 60, max dimension
1280, the snapshot pipeline is Lanczos3-resize then JPEG then base64, and
the fail-once oracle succeeds on the periodic path. -/
theorem c8_paths_amended_witness :
    snapshotPipeline 3840 2160 60 1280
      = [ImgOp.resizeFit 1280 ResampleKind.lanczos3, ImgOp.jpegEncode 60,
         ImgOp.base64Encode] ∧
    (capture_screenshot oRaceEx).1 = Except.ok 37 :=
  ⟨((c8_paths_amended 3840 2160 60 1280).2.1 (by decide)).1,
   ((c8_paths_amended 3840 2160 60 1280).2.2 Nat oRaceEx "race" 37
      (by decide) (by decide)).1⟩

-- ── Persistence collaborator (`store.rs`) ────────────────────────

/-- The Redis state the agent's store operations act on, split by type:
lists (`lpush`/`ltrim`/`lrange`), counters (`incr`), string keys with TTL
(`set_ex`), and sets (`sadd`). -/
structure RedisState where
  lists : String → List String
  counters : String → Nat
  kv : String → Option (String × Nat)
  sets : String → List String

/-- A Redis state with no data. -/
def emptyRedis : RedisState :=
  { lists := fun _ => [], counters := fun _ => 0,
    kv := fun _ => none, sets := fun _ => [] }

/-- Redis `LPUSH`: prepend to the list at `key`. -/
def lpush (st : RedisState) (key val : String) : RedisState :=
  { st with lists := fun k => if k = key then val :: st.lists k else st.lists k }

/-- Redis `LTRIM key start stop`: keep only the elements at indices
`start..stop` of the list at `key`. -/
def ltrim (st : RedisState) (key : String) (start stop : Nat) : RedisState :=
  { st with lists := fun k =>
      if k = key then ((st.lists k).drop start).take (stop + 1 - start)
      else st.lists k }

/-- Redis `INCR`. -/
def incr (st : RedisState) (key : String) : RedisState :=
  { st with counters := fun k =>
      if k = key then st.counters k + 1 else st.counters k }

/-- Redis `SET key val EX ttl`. -/
def setEx (st : RedisState) (key val : String) (ttl : Nat) : RedisState :=
  { st with kv := fun k => if k = key then some (val, ttl) else st.kv k }

/-- `Store::key`: `prefix:part1:part2:...`. -/
def storeKey (pre : String) (parts : List String) : String :=
  parts.foldl (fun k p => k ++ ":" ++ p) pre

/-- The `rule` field of the teacher-schema violation payload. -/
def ruleStr : ViolationKind → String
  | ViolationKind.process => "banned_process"
  | ViolationKind.domain => "banned_domain"

/-- The `severity` field of the teacher-schema violation payload. -/
def severityStr : ViolationKind → String
  | ViolationKind.process => "high"
  | ViolationKind.domain => "medium"

/-- The kind label used in the `detail` field. -/
def kindLabel : ViolationKind → String
  | ViolationKind.process => "Запрещённый процесс"
  | ViolationKind.domain => "Запрещённый домен"

/-- The enforcement label used in the `detail` field. -/
def actionLabel (b : Bool) : String :=
  if b then "заблокировано" else "не удалось заблокировать"

/-- The `detail` field of the violation payload. -/
def detailStr (v : Violation) : String :=
  kindLabel v.kind ++ ": " ++ v.target ++ " (" ++ actionLabel v.action_taken ++ ")"

/-- The serialized violation payload of `Store::record_violation`
(`serde_json` orders keys alphabetically; the RFC3339 timestamp rendering
is abstracted to the printed `Nat` instant, and JSON string escaping is
elided — the payload text plays no role in the history discipline). -/
def violPayload (v : Violation) : String :=
  "\x7b\"detail\":\"" ++ detailStr v ++ "\",\"hostname\":\"" ++ v.hostname
    ++ "\",\"rule\":\"" ++ ruleStr v.kind ++ "\",\"severity\":\""
    ++ severityStr v.kind ++ "\",\"timestamp\":\"" ++ toString v.timestamp
    ++ "\"\x7d"

/-- `Store::record_violation` (`store.rs:114-155`): on a live connection,
`LPUSH` the payload onto `{prefix}:violations:{hostname}` and `INCR`
`{prefix}:violation_count:{hostname}`.  There is no `LTRIM`. -/
def record_violation (st : RedisState) (connOk : Bool) (pre : String)
    (v : Violation) : RedisState :=
  if !connOk then st
  else
    let st1 := lpush st (storeKey pre ["violations", v.hostname]) (violPayload v)
    incr st1 (storeKey pre ["violation_count", v.hostname])

/-- The serialized screenshot payload of `Store::push_screenshot`. -/
def screenshotPayload (hostname data : String) (now : Nat) : String :=
  "\x7b\"data\":\"" ++ data ++ "\",\"hostname\":\"" ++ hostname
    ++ "\",\"size\":" ++ toString data.length ++ ",\"timestamp\":\""
    ++ toString now ++ "\"\x7d"

/-- `Store::push_screenshot` (`store.rs:190-224`): on a live connection,
`SET ... EX 120` the latest screenshot, then `LPUSH` onto
`{prefix}:screenshot_history:{hostname}` and `LTRIM` it to indices 0-9. -/
def push_screenshot (st : RedisState) (connOk : Bool)
    (pre hostname data : String) (now : Nat) : RedisState :=
  if !connOk then st
  else
    let payload := screenshotPayload hostname data now
    let st1 := setEx st (storeKey pre ["screenshot", hostname]) payload 120
    let st2 := lpush st1 (storeKey pre ["screenshot_history", hostname]) payload
    ltrim st2 (storeKey pre ["screenshot_history", hostname]) 0 9

-- ── Claim C9: bounded histories (corrected) ──────────────────────

/-- A recorded violation for the C9 counterexample. -/
def violationEx : Violation :=
  { hostname := "pc1", target := "roblox", kind := ViolationKind.process,
    action_taken := true, username := "u1", timestamp := 0 }

/-- `n` successive `record_violation` calls on an empty store. -/
def recordIter : Nat → RedisState
  | 0 => emptyRedis
  | n + 1 => record_violation (recordIter n) true "nh" violationEx

theorem recordIter_length (n : Nat) :
    ((recordIter n).lists (storeKey "nh" ["violations", "pc1"])).length = n := by
  induction n with
  | zero => rfl
  | succ n ih =>
    show ((record_violation (recordIter n) true "nh" violationEx).lists _).length
      = n + 1
    simp [record_violation, lpush, incr, violationEx, ih]

/-- Counterexample to C9 as stated: the per-host violations history is not
maintained as a bounded list — `record_violation` prepends without ever
trimming, so no bound `N` covers every cycle. -/
theorem c9_history_counterexample :
    ¬ ∃ N : Nat, ∀ k : Nat,
      ((recordIter k).lists (storeKey "nh" ["violations", "pc1"])).length ≤ N := by
  rintro ⟨N, hN⟩
  have h := hN (N + 1)
  rw [recordIter_length] at h
  omega

/-- Claim C9 (amended): the screenshot history is a bounded append-only
list — each push prepends the new entry and trims to the 10 most recent —
while the violations history is prepend-only with a per-host counter and is
never trimmed, so it grows without bound; each operation touches no other
key. -/
theorem c9_history_amended (st : RedisState) (pre host data : String)
    (v : Violation) (now : Nat) :
    ((push_screenshot st true pre host data now).lists
        (storeKey pre ["screenshot_history", host])
      = (screenshotPayload host data now
          :: st.lists (storeKey pre ["screenshot_history", host])).take 10) ∧
    (((push_screenshot st true pre host data now).lists
        (storeKey pre ["screenshot_history", host])).length ≤ 10) ∧
    ((push_screenshot st true pre host data now).kv
        (storeKey pre ["screenshot", host])
      = some (screenshotPayload host data now, 120)) ∧
    ((record_violation st true pre v).lists
        (storeKey pre ["violations", v.hostname])
      = violPayload v :: st.lists (storeKey pre ["violations", v.hostname])) ∧
    ((record_violation st true pre v).counters
        (storeKey pre ["violation_count", v.hostname])
      = st.counters (storeKey pre ["violation_count", v.hostname]) + 1) ∧
    (∀ k, k ≠ storeKey pre ["violations", v.hostname] →
      (record_violation st true pre v).lists k = st.lists k) ∧
    (∀ k, k ≠ storeKey pre ["screenshot_history", host] →
      (push_screenshot st true pre host data now).lists k = st.lists k) := by
  refine ⟨?_, ?_, ?_, ?_, ?_, ?_, ?_⟩
  · simp [push_screenshot, setEx, lpush, ltrim]
  · simp only [push_screenshot, setEx, lpush, ltrim, Bool.not_true,
      Bool.false_eq_true, if_false, if_pos rfl]
    simp
  · simp [push_screenshot, setEx, lpush, ltrim]
  · simp [record_violation, lpush, incr]
  · simp [record_violation, lpush, incr]
  · intro k hk
    simp [record_violation, lpush, incr, hk]
  · intro k hk
    simp [push_screenshot, setEx, lpush, ltrim, hk]

/-- Witness for the amended C9: one push on the empty store leaves a
one-element screenshot history, and a violation record leaves unrelated
list keys untouched. -/
theorem c9_history_amended_witness :
    (push_screenshot emptyRedis true "nh" "pc1" "IMGDATA" 5).lists
        (storeKey "nh" ["screenshot_history", "pc1"])
      = [screenshotPayload "pc1" "IMGDATA" 5] ∧
    (record_violation emptyRedis true "nh" violationEx).lists
        (storeKey "nh" ["agents"]) = [] := by
  constructor
  · have h := (c9_history_amended emptyRedis "nh" "pc1" "IMGDATA" violationEx 5).1
    simpa using h
  · have h := (c9_history_amended emptyRedis "nh" "pc1" "IMGDATA" violationEx 5).2.2.2.2.2.1
      (storeKey "nh" ["agents"]) (by decide)
    simpa using h

end Nishack
